import Mathlib

/-!
Shallow embedding of the teleport auth server core (lib/auth/auth.go).

The auth server composes external directory services (provisioning/token
store, web-session store, certificate-authority store, backend-key store,
user directory) with a signing backend. We embed its state as explicit
association lists, its external signing backend and password check as
function records in a configuration value, and its randomness source as an
explicit entropy tape of bytes. Each operation of the facade is translated
as a pure function from configuration and state to a result paired with
the (possibly updated) state, mirroring the Go control flow branch by
branch.
-/

set_option linter.unusedVariables false

/-- Error kinds surfaced by the auth server, mirroring the trace error
classes used in the source (BadParameter, NotFound, AccessDenied,
trace.Errorf, internal failures). -/
inductive Err where
  | badParameter (param msg : String)
  | notFound (msg : String)
  | accessDenied (msg : String)
  | errorf (msg : String)
  | internalErr (msg : String)
  deriving Repr, DecidableEq

instance {ε α : Type} [DecidableEq ε] [DecidableEq α] : DecidableEq (Except ε α) :=
  fun a b =>
    match a, b with
    | .ok x, .ok y =>
      if h : x = y then isTrue (by rw [h]) else isFalse (fun hc => h (Except.ok.inj hc))
    | .error x, .error y =>
      if h : x = y then isTrue (by rw [h]) else isFalse (fun hc => h (Except.error.inj hc))
    | .ok _, .error _ => isFalse Except.noConfusion
    | .error _, .ok _ => isFalse Except.noConfusion

/-- Modelled from the spec: a Role is an enumerated node/server capability
tag (node, proxy, auth-peer, ...) with its own validity check.  The Go
type teleport.Role and its Check method live outside src/; a value of this
inductive type is by construction one of the enumerated roles, so the
validity check succeeds. -/
inductive Role where
  | auth
  | node
  | proxy
  | web
  | admin
  | signup
  deriving Repr, DecidableEq

/-- The string form of a role (string(role) in Go). -/
def Role.toStr : Role → String
  | .auth => "Auth"
  | .node => "Node"
  | .proxy => "Proxy"
  | .web => "Web"
  | .admin => "Admin"
  | .signup => "Signup"

/-- Modelled from the spec: role validity check; enumerated roles are
valid by construction. -/
def Role.check (r : Role) : Except Err Unit := .ok ()

/-- Modelled from the spec: the output token handed to the joining party
encodes the raw random token together with a role tag.  The Go helpers
services.JoinTokenRole / services.SplitTokenRole live outside src/; we
embed the encoded string as the pair of its two components, so encoding
and decoding are total and mutually inverse. -/
structure OutputToken where
  token : String
  roleTag : String
  deriving Repr, DecidableEq

/-- Modelled from the spec: encode raw token + role tag into the opaque
output token. -/
def joinTokenRole (token roleStr : String) : Except Err OutputToken :=
  .ok ⟨token, roleStr⟩

/-- Modelled from the spec: decode an output token back into raw token and
role tag. -/
def splitTokenRole (ot : OutputToken) : Except Err (String × String) :=
  .ok (ot.token, ot.roleTag)

/-- Modelled from the spec: GenerateToken validates that the node name is
a syntactically valid domain-style name.  cstrings.IsValidDomainName lives
outside src/; we model it as: nonempty and built from alphanumerics,
hyphens and dots. -/
def isValidDomainName (s : String) : Bool :=
  s.length > 0 && s.data.all (fun c => c.isAlphanum || c = '-' || c = '.')

/-- A persisted provisioning (join token) record: bound node/domain name
and bound role, keyed by the raw token in the provisioning store. -/
structure ProvisionToken where
  domainName : String
  role : String
  deriving Repr, DecidableEq

/-- services.WebSession: private key, public certificate, expiry, bearer
token. -/
structure WebSession where
  priv : List Nat
  pub : List Nat
  expires : Int
  bearerToken : String
  deriving Repr, DecidableEq

/-- services.User, fetched from the external user directory; opaque here
beyond its name. -/
structure User where
  name : String
  deriving Repr, DecidableEq

/-- Session: a web session context (session ID, user snapshot, web
session keypair data). -/
structure Session where
  id : String
  user : User
  ws : WebSession
  deriving Repr, DecidableEq

/-- PackedKeys: the {private key, certificate} bundle returned to a newly
admitted node. -/
structure PackedKeys where
  key : List Nat
  cert : List Nat
  deriving Repr, DecidableEq

/-- Certificate-authority kind: host or user CA. -/
inductive CAType where
  | host
  | user
  deriving Repr, DecidableEq

/-- services.CertAuthID: (CA kind, domain name), the key into the CA
store. -/
structure CertAuthID where
  catype : CAType
  domainName : String
  deriving Repr, DecidableEq

/-- A CA record owns an ordered list of signing keys; the first one is
the active one. -/
structure CertAuthority where
  signingKeys : List (List Nat)
  deriving Repr, DecidableEq

/-- encryptor.Key: seal/sign key material for authority-to-authority
trust; Public drops the private half. -/
structure EncKey where
  keyID : String
  pubVal : List Nat
  privVal : List Nat
  deriving Repr, DecidableEq

/-- The .Public() accessor: only the public half of a key. -/
def EncKey.public (k : EncKey) : EncKey :=
  { k with privVal := [] }

/-- Association-list lookup by key. -/
def lookupA {α β : Type} [DecidableEq α] (l : List (α × β)) (k : α) : Option β :=
  (l.find? (fun p => decide (p.1 = k))).map (·.2)

/-- Association-list removal of a key. -/
def eraseA {α β : Type} [DecidableEq α] (l : List (α × β)) (k : α) : List (α × β) :=
  l.filter (fun p => decide (p.1 ≠ k))

/-- Association-list upsert: bind key to value, dropping any previous
binding. -/
def insertA {α β : Type} [DecidableEq α] (l : List (α × β)) (k : α) (v : β) :
    List (α × β) :=
  (k, v) :: eraseA l k

/-- Mutable state of the auth server: the contents of the external
directory services plus the entropy tape feeding the random source. -/
structure AuthState where
  provisioning : List (String × ProvisionToken)
  webSessions : List ((String × String) × WebSession)
  cas : List (CertAuthID × CertAuthority)
  sealKeys : List EncKey
  signKey : Option EncKey
  users : List (String × User)
  entropy : List Nat
  deriving Repr, DecidableEq

/-- The signing backend capability (the Authority interface): key pair
generation and certificate signing, treated as opaque deterministic
functions. -/
structure SigningBackend where
  generateKeyPair : String → Except Err (List Nat × List Nat)
  getNewKeyPairFromPool : Unit → Except Err (List Nat × List Nat)
  generateHostCert :
    List Nat → List Nat → String → String → Role → Int → Except Err (List Nat)
  generateUserCert :
    List Nat → List Nat → String → Int → Except Err (List Nat)

/-- Immutable configuration of the auth server: local trust domain,
injected clock reading, signing backend, and the external password
check. -/
structure AuthConfig where
  hostname : String
  now : Int
  authority : SigningBackend
  checkPassword : String → List Nat → Except Err Unit

/-- One nanosecond-denominated minute, as in Go time.Minute. -/
def timeMinute : Int := 60 * 1000000000

/-- WebSessionTTL: standard web session time to live (10 minutes). -/
def WebSessionTTL : Int := 10 * timeMinute

/-- TokenLenBytes: length in bytes of the invite token. -/
def TokenLenBytes : Nat := 16

/-- WebSessionTokenLenBytes: length in bytes of the web session random
tokens. -/
def WebSessionTokenLenBytes : Nat := 32

/-- Lower-case hexadecimal digit for a value below 16. -/
def hexDigit (n : Nat) : Char :=
  if n < 10 then Char.ofNat (48 + n) else Char.ofNat (87 + n)

/-- Two hex characters for one byte. -/
def byteToHex (b : Nat) : List Char :=
  [hexDigit (b / 16 % 16), hexDigit (b % 16)]

/-- Hex encoding of a byte list, as produced by hex.EncodeToString. -/
def hexEncode (bs : List Nat) : String :=
  ⟨bs.flatMap byteToHex⟩

/-- Modelled from the spec: utils.CryptoRandomHex lives outside src/; the
spec names the random source as a cryptographically secure random hex
generator of a given byte length.  We draw n random bytes from the
entropy tape and hex-encode them; an exhausted tape models failure of the
crypto random source. -/
def cryptoRandomHex (n : Nat) (st : AuthState) : Except Err String × AuthState :=
  if n ≤ st.entropy.length then
    (.ok (hexEncode (st.entropy.take n)), { st with entropy := st.entropy.drop n })
  else
    (.error (.internalErr "crypto random source failed"), st)

/-- Modelled from the spec: ProvisioningService.GetToken (store code
outside src/) fetches the record keyed by the raw token; a missing record
is a not-found error. -/
def getTokenSvc (st : AuthState) (token : String) : Except Err ProvisionToken :=
  match lookupA st.provisioning token with
  | some tok => .ok tok
  | none => .error (.notFound "token not found")

/-- Modelled from the spec: ProvisioningService.UpsertToken (store code
outside src/) persists {token, domainName, role} keyed by the raw token
(the TTL is enforced by the directory service, not modelled here). -/
def upsertTokenSvc (st : AuthState) (token domainName roleStr : String) (ttl : Int) :
    Except Err Unit × AuthState :=
  (.ok (), { st with provisioning := insertA st.provisioning token ⟨domainName, roleStr⟩ })

/-- Modelled from the spec: ProvisioningService.DeleteToken (store code
outside src/) removes the record keyed by the raw token; a missing record
is a not-found error. -/
def deleteTokenSvc (st : AuthState) (token : String) : Except Err Unit × AuthState :=
  match lookupA st.provisioning token with
  | some _ => (.ok (), { st with provisioning := eraseA st.provisioning token })
  | none => (.error (.notFound "token not found"), st)

/-- Modelled from the spec: CAService.GetCertAuthority (store code
outside src/) fetches the CA record for an id; a missing CA is a
not-found error. -/
def getCertAuthoritySvc (st : AuthState) (caid : CertAuthID) : Except Err CertAuthority :=
  match lookupA st.cas caid with
  | some ca => .ok ca
  | none => .error (.notFound "no such CA")

/-- Modelled from the spec: CertAuthority.FirstSigningKey (services code
outside src/) takes the first (active) signing key; zero keys is the
no-signing-key error. -/
def CertAuthority.firstSigningKey (ca : CertAuthority) : Except Err (List Nat) :=
  match ca.signingKeys with
  | [] => .error (.notFound "no signing key available")
  | k :: _ => .ok k

/-- Modelled from the spec: WebService.GetWebSession (store code outside
src/) fetches the persisted web session keyed by (user, id). -/
def getWebSessionSvc (st : AuthState) (user sid : String) : Except Err WebSession :=
  match lookupA st.webSessions (user, sid) with
  | some ws => .ok ws
  | none => .error (.notFound "web session not found")

/-- Modelled from the spec: WebService.UpsertWebSession (store code
outside src/) persists/overwrites the session under (user, id). -/
def upsertWebSessionSvc (st : AuthState) (user sid : String) (ws : WebSession)
    (ttl : Int) : Except Err Unit × AuthState :=
  (.ok (), { st with webSessions := insertA st.webSessions (user, sid) ws })

/-- Modelled from the spec: WebService.DeleteWebSession (store code
outside src/) removes the persisted session. -/
def deleteWebSessionSvc (st : AuthState) (user sid : String) :
    Except Err Unit × AuthState :=
  match lookupA st.webSessions (user, sid) with
  | some _ => (.ok (), { st with webSessions := eraseA st.webSessions (user, sid) })
  | none => (.error (.notFound "web session not found"), st)

/-- Modelled from the spec: BkKeysService.AddSealKey (store code outside
src/) stores a peer public seal key. -/
def addSealKeySvc (st : AuthState) (k : EncKey) : Except Err Unit × AuthState :=
  (.ok (), { st with sealKeys := k :: st.sealKeys })

/-- Modelled from the spec: BkKeysService.GetSignKey (store code outside
src/) retrieves the local sign key; a missing key is a not-found
error. -/
def getSignKeySvc (st : AuthState) : Except Err EncKey :=
  match st.signKey with
  | some k => .ok k
  | none => .error (.notFound "sign key not found")

/-- Modelled from the spec: GetUser (user directory outside src/) fetches
the user record by name; a missing user is a not-found error. -/
def getUserSvc (st : AuthState) (name : String) : Except Err User :=
  match lookupA st.users name with
  | some u => .ok u
  | none => .error (.notFound "user not found")

/-- A recorded invocation of the signing backend (used to state that a
code path performs no signing-backend call). -/
inductive BackendCall where
  | hostCert (signingKey key : List Nat) (hostname authDomain : String)
      (role : Role) (ttl : Int)
  | userCert (signingKey key : List Nat) (username : String) (ttl : Int)
  deriving Repr, DecidableEq

/-- AuthServer.GenerateHostCert with an explicit log of signing-backend
invocations: look up the host CA for the local domain, take its first
signing key, then delegate to the backend. -/
def AuthServer.GenerateHostCertL (cfg : AuthConfig) (st : AuthState)
    (key : List Nat) (hostname authDomain : String) (role : Role) (ttl : Int) :
    Except Err (List Nat) × List BackendCall :=
  match getCertAuthoritySvc st ⟨.host, cfg.hostname⟩ with
  | .error e => (.error e, [])
  | .ok ca =>
    match ca.firstSigningKey with
    | .error e => (.error e, [])
    | .ok privateKey =>
      (cfg.authority.generateHostCert privateKey key hostname authDomain role ttl,
        [.hostCert privateKey key hostname authDomain role ttl])

/-- AuthServer.GenerateHostCert: the certificate-authority facade for host
certificates (result component of the logged version). -/
def AuthServer.GenerateHostCert (cfg : AuthConfig) (st : AuthState)
    (key : List Nat) (hostname authDomain : String) (role : Role) (ttl : Int) :
    Except Err (List Nat) :=
  (AuthServer.GenerateHostCertL cfg st key hostname authDomain role ttl).1

/-- AuthServer.GenerateUserCert with an explicit log of signing-backend
invocations: look up the user CA for the local domain, take its first
signing key, then delegate to the backend. -/
def AuthServer.GenerateUserCertL (cfg : AuthConfig) (st : AuthState)
    (key : List Nat) (username : String) (ttl : Int) :
    Except Err (List Nat) × List BackendCall :=
  match getCertAuthoritySvc st ⟨.user, cfg.hostname⟩ with
  | .error e => (.error e, [])
  | .ok ca =>
    match ca.firstSigningKey with
    | .error e => (.error e, [])
    | .ok privateKey =>
      (cfg.authority.generateUserCert privateKey key username ttl,
        [.userCert privateKey key username ttl])

/-- AuthServer.GenerateUserCert: the certificate-authority facade for user
certificates (result component of the logged version). -/
def AuthServer.GenerateUserCert (cfg : AuthConfig) (st : AuthState)
    (key : List Nat) (username : String) (ttl : Int) : Except Err (List Nat) :=
  (AuthServer.GenerateUserCertL cfg st key username ttl).1

/-- AuthServer.NewWebSession: draw the session ID and bearer token from
the random source, obtain a key pair from the pool, sign a user
certificate with the session TTL, fetch the user record, and assemble the
full session (private key intact). -/
def AuthServer.NewWebSession (cfg : AuthConfig) (st : AuthState) (userName : String) :
    Except Err Session × AuthState :=
  match cryptoRandomHex WebSessionTokenLenBytes st with
  | (.error e, st1) => (.error e, st1)
  | (.ok token, st1) =>
    match cryptoRandomHex WebSessionTokenLenBytes st1 with
    | (.error e, st2) => (.error e, st2)
    | (.ok bearerToken, st2) =>
      match cfg.authority.getNewKeyPairFromPool () with
      | .error e => (.error e, st2)
      | .ok (priv, pub) =>
        match getCertAuthoritySvc st2 ⟨.user, cfg.hostname⟩ with
        | .error e => (.error e, st2)
        | .ok ca =>
          match ca.firstSigningKey with
          | .error e => (.error e, st2)
          | .ok privateKey =>
            match cfg.authority.generateUserCert privateKey pub userName WebSessionTTL with
            | .error e => (.error e, st2)
            | .ok cert =>
              match getUserSvc st2 userName with
              | .error e => (.error e, st2)
              | .ok user =>
                (.ok { id := token, user := user,
                       ws := { priv := priv, pub := cert,
                               expires := cfg.now + WebSessionTTL,
                               bearerToken := bearerToken } }, st2)

/-- AuthServer.UpsertWebSession: persist the session under (user, session
ID). -/
def AuthServer.UpsertWebSession (cfg : AuthConfig) (st : AuthState) (user : String)
    (sess : Session) (ttl : Int) : Except Err Unit × AuthState :=
  upsertWebSessionSvc st user sess.id sess.ws ttl

/-- AuthServer.SignIn: check the password, create a new web session,
persist it, and return it with the private key redacted. -/
def AuthServer.SignIn (cfg : AuthConfig) (st : AuthState) (user : String)
    (password : List Nat) : Except Err Session × AuthState :=
  match cfg.checkPassword user password with
  | .error e => (.error e, st)
  | .ok _ =>
    match AuthServer.NewWebSession cfg st user with
    | (.error e, st1) => (.error e, st1)
    | (.ok sess, st1) =>
      match AuthServer.UpsertWebSession cfg st1 user sess WebSessionTTL with
      | (.error e, st2) => (.error e, st2)
      | (.ok _, st2) =>
        (.ok { sess with ws := { sess.ws with priv := [] } }, st2)

/-- AuthServer.GetWebSession: fetch a persisted session and the user
record; the private key is returned intact (internal read path). -/
def AuthServer.GetWebSession (cfg : AuthConfig) (st : AuthState)
    (userName sid : String) : Except Err Session :=
  match getWebSessionSvc st userName sid with
  | .error e => .error e
  | .ok ws =>
    match getUserSvc st userName with
    | .error e => .error e
    | .ok user => .ok { id := sid, user := user, ws := ws }

/-- AuthServer.CreateWebSession: renewal path; requires the previous
session to exist, creates and persists a new session, and returns it with
the private key redacted. -/
def AuthServer.CreateWebSession (cfg : AuthConfig) (st : AuthState)
    (user prevSessionID : String) : Except Err Session × AuthState :=
  match AuthServer.GetWebSession cfg st user prevSessionID with
  | .error e => (.error e, st)
  | .ok _ =>
    match AuthServer.NewWebSession cfg st user with
    | (.error e, st1) => (.error e, st1)
    | (.ok sess, st1) =>
      match AuthServer.UpsertWebSession cfg st1 user sess WebSessionTTL with
      | (.error e, st2) => (.error e, st2)
      | (.ok _, st2) =>
        (.ok { sess with ws := { sess.ws with priv := [] } }, st2)

/-- AuthServer.GetWebSessionInfo: same fetch as GetWebSession but the
private key is always redacted before return (external read path). -/
def AuthServer.GetWebSessionInfo (cfg : AuthConfig) (st : AuthState)
    (userName sid : String) : Except Err Session :=
  match getWebSessionSvc st userName sid with
  | .error e => .error e
  | .ok ws =>
    match getUserSvc st userName with
    | .error e => .error e
    | .ok user => .ok { id := sid, user := user, ws := { ws with priv := [] } }

/-- AuthServer.DeleteWebSession: remove the persisted session. -/
def AuthServer.DeleteWebSession (cfg : AuthConfig) (st : AuthState)
    (user sid : String) : Except Err Unit × AuthState :=
  deleteWebSessionSvc st user sid

/-- AuthServer.GenerateToken: validate the node name and role, draw a
random token, encode token+role into the output token, and persist the
record keyed by the raw token. -/
def AuthServer.GenerateToken (cfg : AuthConfig) (st : AuthState) (nodeName : String)
    (role : Role) (ttl : Int) : Except Err OutputToken × AuthState :=
  if ¬ isValidDomainName nodeName then
    (.error (.badParameter "nodeName" "not a valid dns name"), st)
  else
    match role.check with
    | .error e => (.error e, st)
    | .ok _ =>
      match cryptoRandomHex TokenLenBytes st with
      | (.error e, st1) => (.error e, st1)
      | (.ok token, st1) =>
        match joinTokenRole token role.toStr with
        | .error e => (.error e, st1)
        | .ok outputToken =>
          match upsertTokenSvc st1 token nodeName role.toStr ttl with
          | (.error e, st2) => (.error e, st2)
          | (.ok _, st2) => (.ok outputToken, st2)

/-- AuthServer.ValidateToken: decode the output token, fetch the record by
raw token, and require the bound domain name to match; a read-only
check that returns the bound role. -/
def AuthServer.ValidateToken (cfg : AuthConfig) (st : AuthState)
    (outputToken : OutputToken) (domainName : String) :
    Except Err String × AuthState :=
  match splitTokenRole outputToken with
  | .error e => (.error e, st)
  | .ok (token, _) =>
    match getTokenSvc st token with
    | .error e => (.error e, st)
    | .ok tok =>
      if tok.domainName ≠ domainName then
        (.error (.errorf "domainName does not match"), st)
      else
        (.ok tok.role, st)

/-- AuthServer.DeleteToken: decode the output token and remove the record
keyed by the raw token. -/
def AuthServer.DeleteToken (cfg : AuthConfig) (st : AuthState)
    (outputToken : OutputToken) : Except Err Unit × AuthState :=
  match splitTokenRole outputToken with
  | .error e => (.error e, st)
  | .ok (token, _) => deleteTokenSvc st token

/-- AuthServer.RegisterUsingToken: validate the role, decode and fetch the
token, require bound domain name = nodename and bound role = role,
generate a fresh key pair, request a host certificate for
nodename.hostname against the local domain with zero TTL, delete the
token, and return the packed keys. -/
def AuthServer.RegisterUsingToken (cfg : AuthConfig) (st : AuthState)
    (outputToken : OutputToken) (nodename : String) (role : Role) :
    Except Err PackedKeys × AuthState :=
  match role.check with
  | .error e => (.error e, st)
  | .ok _ =>
    match splitTokenRole outputToken with
    | .error e => (.error e, st)
    | .ok (token, _) =>
      match getTokenSvc st token with
      | .error e => (.error e, st)
      | .ok tok =>
        if tok.domainName ≠ nodename then
          (.error (.badParameter "domainName" "domainName does not match"), st)
        else if tok.role ≠ role.toStr then
          (.error (.badParameter "token.Role" "role does not match"), st)
        else
          match cfg.authority.generateKeyPair "" with
          | .error e => (.error e, st)
          | .ok (k, pub) =>
            match AuthServer.GenerateHostCert cfg st pub
                (nodename ++ "." ++ cfg.hostname) cfg.hostname role 0 with
            | .error e => (.error e, st)
            | .ok c =>
              match AuthServer.DeleteToken cfg st outputToken with
              | (.error e, st1) => (.error e, st1)
              | (.ok _, st1) => (.ok { key := k, cert := c }, st1)

/-- AuthServer.RegisterNewAuthServer: decode and fetch the token, require
bound domain name = domainName and bound role = Auth (access denied
otherwise), delete the token, store the peer seal key, and return the
public half of the local sign key. -/
def AuthServer.RegisterNewAuthServer (cfg : AuthConfig) (st : AuthState)
    (domainName : String) (outputToken : OutputToken) (publicSealKey : EncKey) :
    Except Err EncKey × AuthState :=
  match splitTokenRole outputToken with
  | .error e => (.error e, st)
  | .ok (token, _) =>
    match getTokenSvc st token with
    | .error e => (.error e, st)
    | .ok tok =>
      if tok.domainName ≠ domainName then
        (.error (.accessDenied "domainName does not match"), st)
      else if tok.role ≠ Role.auth.toStr then
        (.error (.accessDenied "role does not match"), st)
      else
        match AuthServer.DeleteToken cfg st outputToken with
        | (.error e, st1) => (.error e, st1)
        | (.ok _, st1) =>
          match addSealKeySvc st1 publicSealKey with
          | (.error e, st2) => (.error e, st2)
          | (.ok _, st2) =>
            match getSignKeySvc st2 with
            | .error e => (.error e, st2)
            | .ok localKey => (.ok localKey.public, st2)

/-- AuthServer.GetLocalDomain: the local trust domain, with no failure
mode. -/
def AuthServer.GetLocalDomain (cfg : AuthConfig) : Except Err String :=
  .ok cfg.hostname

/-! ## Concrete fixtures used by witnesses and counterexamples -/

/-- A signing backend whose operations all succeed with fixed byte
values. -/
def backend0 : SigningBackend :=
  { generateKeyPair := fun _ => .ok ([1], [2])
    getNewKeyPairFromPool := fun _ => .ok ([3], [4])
    generateHostCert := fun _ _ _ _ _ _ => .ok [5]
    generateUserCert := fun _ _ _ _ => .ok [6] }

/-- A configuration with trust domain cluster.example, clock at 0, the
all-succeeding backend, and an always-accepting password check. -/
def cfg0 : AuthConfig :=
  { hostname := "cluster.example", now := 0, authority := backend0,
    checkPassword := fun _ _ => .ok () }

/-- A backend whose host-certificate signing fails. -/
def backendNoCert : SigningBackend :=
  { backend0 with
    generateHostCert := fun _ _ _ _ _ _ => .error (.internalErr "cert backend failure") }

/-- cfg0 with the failing host-certificate backend. -/
def cfgNoCert : AuthConfig := { cfg0 with authority := backendNoCert }

/-- A stored web session with a non-empty private key. -/
def ws0 : WebSession := { priv := [7], pub := [8], expires := 5, bearerToken := "b0" }

/-- Base state: one stored session for alice, user and host CAs with one
signing key each, a sign key, user alice, and 64 zero bytes of entropy. -/
def st0 : AuthState :=
  { provisioning := []
    webSessions := [(("alice", "sid0"), ws0)]
    cas := [(⟨.user, "cluster.example"⟩, ⟨[[9]]⟩), (⟨.host, "cluster.example"⟩, ⟨[[10]]⟩)]
    sealKeys := []
    signKey := some ⟨"sk", [11], [12]⟩
    users := [("alice", ⟨"alice"⟩)]
    entropy := List.replicate 64 0 }

/-- Hex encoding of 32 zero bytes (a freshly drawn session token under
the zero entropy tape). -/
def zeros64 : String := hexEncode (List.replicate 32 0)

/-- Hex encoding of 16 zero bytes (a freshly drawn join token under the
zero entropy tape). -/
def zeros32 : String := hexEncode (List.replicate 16 0)

/-- The web session produced by NewWebSession under cfg0/st0. -/
def wsNew : WebSession :=
  { priv := [3], pub := [6], expires := 0 + WebSessionTTL, bearerToken := zeros64 }

/-- The redacted session returned by SignIn/CreateWebSession under
cfg0/st0 for alice. -/
def c2sess : Session :=
  { id := zeros64, user := ⟨"alice"⟩, ws := { wsNew with priv := [] } }

/-- The redacted session returned by GetWebSessionInfo for alice and
sid0. -/
def c2info : Session :=
  { id := "sid0", user := ⟨"alice"⟩, ws := { ws0 with priv := [] } }

/-- State after a successful session creation under cfg0/st0: entropy
consumed and the new session persisted with its private key intact. -/
def st0after : AuthState :=
  { st0 with
    entropy := [],
    webSessions := insertA st0.webSessions ("alice", zeros64) wsNew }

/-- A join-token record binding node db1 with role Node. -/
def tokR : ProvisionToken := { domainName := "db1", role := "Node" }

/-- The output token for tokR under raw token tk0. -/
def otR : OutputToken := { token := "tk0", roleTag := "Node" }

/-- st0 with the db1 join token provisioned. -/
def stR : AuthState := { st0 with provisioning := [("tk0", tokR)] }

/-- stR after successful redemption of tk0 (record erased). -/
def stRafter : AuthState := { stR with provisioning := eraseA stR.provisioning "tk0" }

/-- A join-token record binding peer domain peer.example with role
Auth. -/
def tokA : ProvisionToken := { domainName := "peer.example", role := "Auth" }

/-- The output token for tokA under raw token tka. -/
def otA : OutputToken := { token := "tka", roleTag := "Auth" }

/-- st0 with the auth-peer token provisioned and no local sign key. -/
def stNA : AuthState := { st0 with provisioning := [("tka", tokA)], signKey := none }

/-- The peer public seal key submitted during bootstrap. -/
def sealK : EncKey := { keyID := "peer", pubVal := [13], privVal := [] }

/-- st0 with CAs that have zero signing keys. -/
def stZ : AuthState :=
  { st0 with
    cas := [(⟨.user, "cluster.example"⟩, ⟨[]⟩), (⟨.host, "cluster.example"⟩, ⟨[]⟩)] }

/-- st0 with a stored session whose ID collides with the token drawn from
the zero entropy tape. -/
def stCol : AuthState :=
  { st0 with webSessions := [(("alice", zeros64), ws0)] }

/-- The output token produced by GenerateToken under cfg0/st0 for
node1 with role Node. -/
def c5ot : OutputToken := { token := zeros32, roleTag := "Node" }

/-- The state after GenerateToken draws the zero join token for node1:
16 entropy bytes consumed and the record persisted under the raw
token. -/
def c5st : AuthState :=
  { st0 with
    entropy := (List.replicate 64 0).drop TokenLenBytes,
    provisioning := [(zeros32, ⟨"node1", "Node"⟩)] }

/-- The full (unredacted) session assembled by NewWebSession under
cfg0/st0 for alice. -/
def nwSess : Session := { id := zeros64, user := ⟨"alice"⟩, ws := wsNew }

/-- st0 after NewWebSession consumed the whole entropy tape. -/
def stNW : AuthState := { st0 with entropy := [] }

/-! ## Store lemmas -/

theorem lookupA_insertA_self {α β : Type} [DecidableEq α] (l : List (α × β))
    (k : α) (v : β) : lookupA (insertA l k v) k = some v := by
  simp [lookupA, insertA, List.find?]

theorem find?_eraseA_ne {α β : Type} [DecidableEq α] (l : List (α × β))
    (k k' : α) (h : k' ≠ k) :
    List.find? (fun p => decide (p.1 = k')) (eraseA l k)
      = List.find? (fun p => decide (p.1 = k')) l := by
  unfold eraseA
  rw [List.find?_filter]
  congr 1
  funext p
  by_cases hp' : p.1 = k'
  · have hp : ¬ p.1 = k := fun hc => h (hp'.symm.trans hc)
    simp [hp, hp', h]
  · simp [hp']

theorem lookupA_eraseA_ne {α β : Type} [DecidableEq α] (l : List (α × β))
    (k k' : α) (h : k' ≠ k) :
    lookupA (eraseA l k) k' = lookupA l k' := by
  unfold lookupA
  rw [find?_eraseA_ne l k k' h]

theorem lookupA_insertA_ne {α β : Type} [DecidableEq α] (l : List (α × β))
    (k k' : α) (v : β) (h : k' ≠ k) :
    lookupA (insertA l k v) k' = lookupA l k' := by
  have hk : ¬ ((fun p : α × β => decide (p.1 = k')) (k, v) = true) := by
    simp only [decide_eq_true_eq]
    exact fun hc => h hc.symm
  unfold insertA lookupA
  rw [List.find?_cons_of_neg (p := fun p : α × β => decide (p.1 = k')) (a := (k, v))
    (eraseA l k) hk]
  rw [find?_eraseA_ne l k k' h]

theorem lookupA_eraseA_self {α β : Type} [DecidableEq α] (l : List (α × β))
    (k : α) : lookupA (eraseA l k) k = none := by
  induction l with
  | nil => rfl
  | cons p l ih =>
    by_cases h : p.1 = k
    · simpa [eraseA, List.filter_cons, h] using ih
    · simpa [eraseA, lookupA, List.filter_cons, List.find?_cons, h] using ih

theorem getTokenSvc_ok_iff (st : AuthState) (tk : String) (tok : ProvisionToken) :
    getTokenSvc st tk = .ok tok ↔ lookupA st.provisioning tk = some tok := by
  unfold getTokenSvc
  cases h : lookupA st.provisioning tk <;> simp [h]

theorem deleteTokenSvc_lookup (st : AuthState) (tk : String) :
    lookupA (deleteTokenSvc st tk).2.provisioning tk = none := by
  unfold deleteTokenSvc
  cases h : lookupA st.provisioning tk with
  | none => simpa using h
  | some tok => simp [lookupA_eraseA_self]

/-! ## Claims -/

/-- C1: once DeleteToken has been applied to an output token, any
subsequent ValidateToken or RegisterUsingToken call on the same output
token returns a not-found error rather than succeeding. -/
theorem deleted_token_never_validates (cfg : AuthConfig) (st : AuthState)
    (ot : OutputToken) (d n : String) (r : Role) :
    (AuthServer.ValidateToken cfg (AuthServer.DeleteToken cfg st ot).2 ot d).1
      = .error (.notFound "token not found") ∧
    (AuthServer.RegisterUsingToken cfg (AuthServer.DeleteToken cfg st ot).2 ot n r).1
      = .error (.notFound "token not found") := by
  have hnone : lookupA (AuthServer.DeleteToken cfg st ot).2.provisioning ot.token = none := by
    simpa [AuthServer.DeleteToken, splitTokenRole] using deleteTokenSvc_lookup st ot.token
  constructor
  · simp [AuthServer.ValidateToken, splitTokenRole, getTokenSvc, hnone]
  · simp [AuthServer.RegisterUsingToken, Role.check, splitTokenRole, getTokenSvc, hnone]

/-- C8: ValidateToken mutates no store state, and it succeeds with role r
exactly when the provisioning record for the raw token exists with bound
domain equal to the supplied domain name and bound role r; in particular
no joining-node name enters the check. -/
theorem validateToken_readonly (cfg : AuthConfig) (st : AuthState)
    (ot : OutputToken) (d : String) :
    (AuthServer.ValidateToken cfg st ot d).2 = st ∧
    ∀ r, (AuthServer.ValidateToken cfg st ot d).1 = .ok r ↔
      lookupA st.provisioning ot.token = some ⟨d, r⟩ := by
  constructor
  · simp only [AuthServer.ValidateToken, splitTokenRole]
    cases h : getTokenSvc st ot.token with
    | error e => simp
    | ok tok => by_cases hd : tok.domainName = d <;> simp [hd]
  · intro r
    simp only [AuthServer.ValidateToken, splitTokenRole]
    cases h : getTokenSvc st ot.token with
    | error e =>
      have : lookupA st.provisioning ot.token ≠ some ⟨d, r⟩ := by
        intro hc
        rw [← getTokenSvc_ok_iff] at hc
        rw [h] at hc
        exact Except.noConfusion hc
      simp [this]
    | ok tok =>
      obtain ⟨dn, rl⟩ := tok
      rw [getTokenSvc_ok_iff] at h
      dsimp only
      by_cases hd : dn = d
      · subst hd
        rw [if_neg (not_not_intro rfl)]
        dsimp only
        constructor
        · intro hr
          simp only [Except.ok.injEq] at hr
          rw [← hr]
          exact h
        · intro hl
          rw [h] at hl
          simp only [Option.some.injEq, ProvisionToken.mk.injEq] at hl
          simp [hl.2]
      · rw [if_pos hd]
        dsimp only
        constructor
        · intro hr
          exact Except.noConfusion hr
        · intro hl
          rw [h] at hl
          simp only [Option.some.injEq, ProvisionToken.mk.injEq] at hl
          exact absurd hl.1 hd

/-- C2: the Session returned by a successful SignIn, CreateWebSession or
GetWebSessionInfo call always has an empty private key field, for every
underlying stored session (including ones with a non-empty key). -/
theorem web_sessions_redact_private_key (cfg : AuthConfig) (st : AuthState)
    (u : String) (pw : List Nat) (pid sid : String) :
    (∀ sess st1, AuthServer.SignIn cfg st u pw = (.ok sess, st1) → sess.ws.priv = []) ∧
    (∀ sess st1, AuthServer.CreateWebSession cfg st u pid = (.ok sess, st1) →
      sess.ws.priv = []) ∧
    (∀ sess, AuthServer.GetWebSessionInfo cfg st u sid = .ok sess → sess.ws.priv = []) := by
  refine ⟨?_, ?_, ?_⟩
  · intro sess st1 h
    unfold AuthServer.SignIn at h
    split at h
    · simp at h
    · split at h
      · simp at h
      · split at h
        · simp at h
        · simp only [Prod.mk.injEq, Except.ok.injEq] at h
          obtain ⟨h1, h2⟩ := h
          subst h1
          rfl
  · intro sess st1 h
    unfold AuthServer.CreateWebSession at h
    split at h
    · simp at h
    · split at h
      · simp at h
      · split at h
        · simp at h
        · simp only [Prod.mk.injEq, Except.ok.injEq] at h
          obtain ⟨h1, h2⟩ := h
          subst h1
          rfl
  · intro sess h
    unfold AuthServer.GetWebSessionInfo at h
    split at h
    · simp at h
    · split at h
      · simp at h
      · simp only [Except.ok.injEq] at h
        subst h
        rfl

/-- Witness for C2: under cfg0/st0 all three calls succeed and each
returned session has an empty private key, although the stored session
ws0 and the freshly generated key pair have non-empty private keys. -/
theorem web_sessions_redact_private_key_witness :
    AuthServer.SignIn cfg0 st0 "alice" [] = (.ok c2sess, st0after) ∧
    AuthServer.CreateWebSession cfg0 st0 "alice" "sid0" = (.ok c2sess, st0after) ∧
    AuthServer.GetWebSessionInfo cfg0 st0 "alice" "sid0" = .ok c2info ∧
    c2sess.ws.priv = [] ∧ c2info.ws.priv = [] :=
  ⟨by decide, by decide, by decide,
    (web_sessions_redact_private_key cfg0 st0 "alice" [] "sid0" "sid0").1 c2sess st0after
      (by decide),
    (web_sessions_redact_private_key cfg0 st0 "alice" [] "sid0" "sid0").2.2 c2info
      (by decide)⟩

theorem deleteToken_error_state (cfg : AuthConfig) (st : AuthState) (ot : OutputToken)
    (e : Err) (st1 : AuthState) :
    AuthServer.DeleteToken cfg st ot = (.error e, st1) → st1 = st := by
  intro h
  unfold AuthServer.DeleteToken at h
  dsimp only [splitTokenRole] at h
  unfold deleteTokenSvc at h
  split at h
  · simp at h
  · simp only [Prod.mk.injEq] at h
    exact h.2.symm

theorem deleteToken_ok_state (cfg : AuthConfig) (st : AuthState) (ot : OutputToken)
    (st1 : AuthState) :
    AuthServer.DeleteToken cfg st ot = (.ok (), st1) →
    st1 = { st with provisioning := eraseA st.provisioning ot.token } := by
  intro h
  unfold AuthServer.DeleteToken at h
  dsimp only [splitTokenRole] at h
  unfold deleteTokenSvc at h
  split at h
  · simp only [Prod.mk.injEq] at h
    exact h.2.symm
  · simp at h

/-- C3: a RegisterUsingToken call that returns an error leaves the
provisioning store intact; in particular a failure of host-certificate
generation (after the fresh key pair was drawn) does not consume the
token, which is deleted only after certificate issuance succeeds. -/
theorem registerUsingToken_error_preserves_tokens (cfg : AuthConfig) (st : AuthState)
    (ot : OutputToken) (n : String) (r : Role) (e : Err) (st1 : AuthState) :
    AuthServer.RegisterUsingToken cfg st ot n r = (.error e, st1) →
    st1.provisioning = st.provisioning := by
  intro h
  unfold AuthServer.RegisterUsingToken at h
  split at h
  · simp only [Prod.mk.injEq] at h
    rw [← h.2]
  split at h
  · simp only [Prod.mk.injEq] at h
    rw [← h.2]
  split at h
  · simp only [Prod.mk.injEq] at h
    rw [← h.2]
  split at h
  · simp only [Prod.mk.injEq] at h
    rw [← h.2]
  split at h
  · simp only [Prod.mk.injEq] at h
    rw [← h.2]
  split at h
  · simp only [Prod.mk.injEq] at h
    rw [← h.2]
  split at h
  · simp only [Prod.mk.injEq] at h
    rw [← h.2]
  split at h
  · next e' st1' heq =>
    simp only [Prod.mk.injEq] at h
    rw [← h.2]
    rw [deleteToken_error_state cfg st ot e' st1' heq]
  · simp at h

/-- Witness for C3: with a backend whose host-certificate signing fails,
redeeming a valid token errors and the provisioning store still holds the
token. -/
theorem registerUsingToken_error_preserves_tokens_witness :
    AuthServer.RegisterUsingToken cfgNoCert stR otR "db1" .node
      = (.error (.internalErr "cert backend failure"), stR) ∧
    stR.provisioning = stR.provisioning :=
  ⟨by decide,
    registerUsingToken_error_preserves_tokens cfgNoCert stR otR "db1" .node
      (.internalErr "cert backend failure") stR (by decide)⟩

/-- C4 counterexample: RegisterNewAuthServer deletes the token before
storing the seal key and retrieving the sign key, so when the local sign
key is missing the call returns an error and the token record is
nevertheless gone from the provisioning store. -/
theorem registerNewAuthServer_failed_redemption_deletes :
    (AuthServer.RegisterNewAuthServer cfg0 stNA "peer.example" otA sealK).1
      = .error (.notFound "sign key not found") ∧
    lookupA stNA.provisioning "tka" = some tokA ∧
    lookupA (AuthServer.RegisterNewAuthServer cfg0 stNA "peer.example" otA
      sealK).2.provisioning "tka" = none := by
  refine ⟨by decide, by decide, by decide⟩

/-- C4 amended: a RegisterNewAuthServer call that fails because the token
is missing or its bound domain or role mismatch leaves the provisioning
store unchanged; once both checks pass the token is deleted before the
seal-key store and the sign-key retrieval, so errors from those later
steps leave the token deleted. -/
theorem registerNewAuthServer_amended (cfg : AuthConfig) (st : AuthState)
    (d : String) (ot : OutputToken) (k : EncKey) :
    (lookupA st.provisioning ot.token = none →
      AuthServer.RegisterNewAuthServer cfg st d ot k
        = (.error (.notFound "token not found"), st)) ∧
    (∀ tok, lookupA st.provisioning ot.token = some tok →
      tok.domainName ≠ d ∨ tok.role ≠ Role.auth.toStr →
      (AuthServer.RegisterNewAuthServer cfg st d ot k).2 = st) ∧
    (∀ tok, lookupA st.provisioning ot.token = some tok →
      tok.domainName = d → tok.role = Role.auth.toStr →
      lookupA (AuthServer.RegisterNewAuthServer cfg st d ot k).2.provisioning ot.token
        = none) := by
  refine ⟨?_, ?_, ?_⟩
  · intro hnone
    simp [AuthServer.RegisterNewAuthServer, splitTokenRole, getTokenSvc, hnone]
  · intro tok hsome hmm
    have hok : getTokenSvc st ot.token = .ok tok :=
      (getTokenSvc_ok_iff st ot.token tok).mpr hsome
    simp only [AuthServer.RegisterNewAuthServer, splitTokenRole]
    rw [hok]
    dsimp only
    by_cases hd : tok.domainName = d
    · have hr : tok.role ≠ Role.auth.toStr := hmm.resolve_left (not_not_intro hd)
      rw [if_neg (not_not_intro hd), if_pos hr]
    · rw [if_pos hd]
  · intro tok hsome hd hr
    have hok : getTokenSvc st ot.token = .ok tok :=
      (getTokenSvc_ok_iff st ot.token tok).mpr hsome
    simp only [AuthServer.RegisterNewAuthServer, splitTokenRole]
    rw [hok]
    dsimp only
    rw [if_neg (not_not_intro hd), if_neg (not_not_intro hr)]
    have hdel : AuthServer.DeleteToken cfg st ot
        = (.ok (), { st with provisioning := eraseA st.provisioning ot.token }) := by
      unfold AuthServer.DeleteToken
      dsimp only [splitTokenRole]
      unfold deleteTokenSvc
      rw [hsome]
    rw [hdel]
    dsimp only [addSealKeySvc]
    unfold getSignKeySvc
    cases hs : st.signKey <;> simp [lookupA_eraseA_self]

/-- Witness for C4 amended: with no token present the call fails and the
state is untouched; with a mismatched domain the state is untouched; with
matching domain and role but a missing sign key, the token is deleted. -/
theorem registerNewAuthServer_amended_witness :
    lookupA st0.provisioning "tka" = none ∧
    AuthServer.RegisterNewAuthServer cfg0 st0 "peer.example" otA sealK
      = (.error (.notFound "token not found"), st0) ∧
    lookupA stNA.provisioning "tka" = some tokA ∧
    (AuthServer.RegisterNewAuthServer cfg0 stNA "other.example" otA sealK).2 = stNA ∧
    lookupA (AuthServer.RegisterNewAuthServer cfg0 stNA "peer.example" otA
      sealK).2.provisioning "tka" = none :=
  ⟨by decide,
    (registerNewAuthServer_amended cfg0 st0 "peer.example" otA sealK).1 (by decide),
    by decide,
    (registerNewAuthServer_amended cfg0 stNA "other.example" otA sealK).2.1 tokA
      (by decide) (Or.inl (by decide)),
    (registerNewAuthServer_amended cfg0 stNA "peer.example" otA sealK).2.2 tokA
      (by decide) (by decide) (by decide)⟩

/-- C5: a successful GenerateToken followed immediately by ValidateToken
on the returned output token with the domain name the token was bound to
succeeds and returns the role that was passed to GenerateToken. -/
theorem generate_then_validate (cfg : AuthConfig) (st : AuthState) (nodeName : String)
    (role : Role) (ttl : Int) (ot : OutputToken) (st1 : AuthState) :
    AuthServer.GenerateToken cfg st nodeName role ttl = (.ok ot, st1) →
    (AuthServer.ValidateToken cfg st1 ot nodeName).1 = .ok role.toStr := by
  intro h
  unfold AuthServer.GenerateToken at h
  split at h
  · simp at h
  split at h
  · simp at h
  split at h
  · simp at h
  dsimp only [joinTokenRole, upsertTokenSvc] at h
  simp only [Prod.mk.injEq, Except.ok.injEq] at h
  obtain ⟨h1, h2⟩ := h
  subst h1
  subst h2
  simp only [AuthServer.ValidateToken, splitTokenRole]
  unfold getTokenSvc
  dsimp only
  rw [lookupA_insertA_self]
  dsimp only
  rw [if_neg (not_not_intro rfl)]

/-- Witness for C5: GenerateToken for node1 with role Node under cfg0/st0
succeeds, and ValidateToken on the returned token with domain node1
returns Node. -/
theorem generate_then_validate_witness :
    AuthServer.GenerateToken cfg0 st0 "node1" .node 0 = (.ok c5ot, c5st) ∧
    (AuthServer.ValidateToken cfg0 c5st c5ot "node1").1 = .ok "Node" :=
  ⟨by decide, generate_then_validate cfg0 st0 "node1" .node 0 c5ot c5st (by decide)⟩

/-- C6: a successful RegisterUsingToken call found a persisted record
whose bound domain name is the supplied node name and whose bound role is
the supplied role, and the returned bundle carries the generated private
key together with the host certificate issued for nodename.trustDomain
against the local trust domain with zero TTL. -/
theorem registerUsingToken_success_shape (cfg : AuthConfig) (st : AuthState)
    (ot : OutputToken) (n : String) (role : Role) (keys : PackedKeys)
    (st1 : AuthState) :
    AuthServer.RegisterUsingToken cfg st ot n role = (.ok keys, st1) →
    (∃ tok, lookupA st.provisioning ot.token = some tok ∧
      tok.domainName = n ∧ tok.role = role.toStr) ∧
    (∃ k pub, cfg.authority.generateKeyPair "" = .ok (k, pub) ∧
      keys.key = k ∧
      AuthServer.GenerateHostCert cfg st pub (n ++ "." ++ cfg.hostname)
        cfg.hostname role 0 = .ok keys.cert) := by
  intro h
  unfold AuthServer.RegisterUsingToken at h
  split at h
  · simp at h
  split at h
  · simp at h
  next token snd hsplit =>
    simp only [splitTokenRole, Except.ok.injEq, Prod.mk.injEq] at hsplit
    obtain ⟨hts, hrs⟩ := hsplit
    subst hts
    subst hrs
    split at h
    · simp at h
    next tok htok =>
      split at h
      · simp at h
      next hdom =>
        split at h
        · simp at h
        next hrole =>
          split at h
          · simp at h
          next k pub hkp =>
            split at h
            · simp at h
            next c hcert =>
              split at h
              · simp at h
              next u st2 hdel =>
                simp only [Prod.mk.injEq, Except.ok.injEq] at h
                obtain ⟨hkeys, hst⟩ := h
                refine ⟨⟨tok, (getTokenSvc_ok_iff st ot.token tok).mp htok,
                  not_not.mp hdom, not_not.mp hrole⟩, ⟨k, pub, hkp, ?_, ?_⟩⟩
                · rw [← hkeys]
                · rw [← hkeys]
                  exact hcert

/-- Witness for C6: redeeming the db1/Node token under cfg0/stR succeeds
and returns the generated private key with the issued certificate for
db1.cluster.example. -/
theorem registerUsingToken_success_shape_witness :
    AuthServer.RegisterUsingToken cfg0 stR otR "db1" .node
      = (.ok { key := [1], cert := [5] }, stRafter) ∧
    ((∃ tok, lookupA stR.provisioning otR.token = some tok ∧
        tok.domainName = "db1" ∧ tok.role = Role.node.toStr) ∧
      (∃ k pub, cfg0.authority.generateKeyPair "" = .ok (k, pub) ∧
        ({ key := [1], cert := [5] } : PackedKeys).key = k ∧
        AuthServer.GenerateHostCert cfg0 stR pub ("db1" ++ "." ++ cfg0.hostname)
          cfg0.hostname .node 0 = .ok ({ key := [1], cert := [5] } : PackedKeys).cert)) :=
  ⟨by decide,
    registerUsingToken_success_shape cfg0 stR otR "db1" .node
      { key := [1], cert := [5] } stRafter (by decide)⟩

/-- C7: against a CA record with zero signing keys for the local trust
domain, GenerateHostCert and GenerateUserCert return the no-signing-key
error and perform no signing-backend call (empty backend call log). -/
theorem generateCert_no_signing_key (cfg : AuthConfig) (st : AuthState)
    (key : List Nat) (hostname authDomain : String) (role : Role) (ttl : Int)
    (uname : String) (uttl : Int) (cah cau : CertAuthority) :
    (lookupA st.cas ⟨.host, cfg.hostname⟩ = some cah → cah.signingKeys = [] →
      AuthServer.GenerateHostCertL cfg st key hostname authDomain role ttl
        = (.error (.notFound "no signing key available"), [])) ∧
    (lookupA st.cas ⟨.user, cfg.hostname⟩ = some cau → cau.signingKeys = [] →
      AuthServer.GenerateUserCertL cfg st key uname uttl
        = (.error (.notFound "no signing key available"), [])) := by
  constructor
  · intro hca hkeys
    simp [AuthServer.GenerateHostCertL, getCertAuthoritySvc, hca,
      CertAuthority.firstSigningKey, hkeys]
  · intro hca hkeys
    simp [AuthServer.GenerateUserCertL, getCertAuthoritySvc, hca,
      CertAuthority.firstSigningKey, hkeys]

/-- Witness for C7: under stZ both CAs exist with zero signing keys, and
both facade calls fail with the no-signing-key error and an empty
backend-call log. -/
theorem generateCert_no_signing_key_witness :
    lookupA stZ.cas ⟨.host, cfg0.hostname⟩ = some ⟨[]⟩ ∧
    lookupA stZ.cas ⟨.user, cfg0.hostname⟩ = some ⟨[]⟩ ∧
    AuthServer.GenerateHostCertL cfg0 stZ [2] "db1.cluster.example" "cluster.example"
      .node 0 = (.error (.notFound "no signing key available"), []) ∧
    AuthServer.GenerateUserCertL cfg0 stZ [2] "alice" WebSessionTTL
      = (.error (.notFound "no signing key available"), []) :=
  ⟨by decide, by decide,
    (generateCert_no_signing_key cfg0 stZ [2] "db1.cluster.example" "cluster.example"
      .node 0 "alice" WebSessionTTL ⟨[]⟩ ⟨[]⟩).1 (by decide) rfl,
    (generateCert_no_signing_key cfg0 stZ [2] "db1.cluster.example" "cluster.example"
      .node 0 "alice" WebSessionTTL ⟨[]⟩ ⟨[]⟩).2 (by decide) rfl⟩

/-- C9: a successful NewWebSession returns a session expiring exactly at
the clock reading plus the fixed 10-minute session TTL, whose session ID
and bearer token are the hex encodings of two independent 32-byte draws
from the random source; GenerateToken draws its join token from 16 random
bytes; these lengths and the TTL are the fixed policy constants. -/
theorem newWebSession_fixed_parameters (cfg : AuthConfig) (st : AuthState) :
    (∀ u sess st1, AuthServer.NewWebSession cfg st u = (.ok sess, st1) →
      sess.ws.expires = cfg.now + WebSessionTTL ∧
      sess.id = hexEncode (st.entropy.take WebSessionTokenLenBytes) ∧
      sess.ws.bearerToken
        = hexEncode ((st.entropy.drop WebSessionTokenLenBytes).take
            WebSessionTokenLenBytes)) ∧
    (∀ n r ttl ot st2, AuthServer.GenerateToken cfg st n r ttl = (.ok ot, st2) →
      ot.token = hexEncode (st.entropy.take TokenLenBytes)) ∧
    WebSessionTTL = 10 * timeMinute ∧ WebSessionTokenLenBytes = 32 ∧
    TokenLenBytes = 16 := by
  refine ⟨?_, ?_, rfl, rfl, rfl⟩
  · intro u sess st1 h
    unfold AuthServer.NewWebSession at h
    split at h
    · simp at h
    next token st1a hrand1 =>
      unfold cryptoRandomHex at hrand1
      split at hrand1
      · simp only [Prod.mk.injEq, Except.ok.injEq] at hrand1
        obtain ⟨ht1, hs1⟩ := hrand1
        subst ht1
        subst hs1
        split at h
        · simp at h
        next bearer st2a hrand2 =>
          unfold cryptoRandomHex at hrand2
          split at hrand2
          · simp only [Prod.mk.injEq, Except.ok.injEq] at hrand2
            obtain ⟨ht2, hs2⟩ := hrand2
            subst ht2
            subst hs2
            split at h
            · simp at h
            next priv pub hpool =>
              split at h
              · simp at h
              next ca hca =>
                split at h
                · simp at h
                next pk hpk =>
                  split at h
                  · simp at h
                  next cert hcert =>
                    split at h
                    · simp at h
                    next usr huser =>
                      simp only [Prod.mk.injEq, Except.ok.injEq] at h
                      obtain ⟨h1, h2⟩ := h
                      subst h1
                      exact ⟨rfl, rfl, rfl⟩
          · simp at hrand2
      · simp at hrand1
  · intro n r ttl ot st2 h
    unfold AuthServer.GenerateToken at h
    split at h
    · simp at h
    split at h
    · simp at h
    split at h
    · simp at h
    next token st1a hrand =>
      unfold cryptoRandomHex at hrand
      split at hrand
      · simp only [Prod.mk.injEq, Except.ok.injEq] at hrand
        obtain ⟨ht, hs⟩ := hrand
        subst ht
        subst hs
        dsimp only [joinTokenRole, upsertTokenSvc] at h
        simp only [Prod.mk.injEq, Except.ok.injEq] at h
        obtain ⟨h1, h2⟩ := h
        subst h1
        rfl
      · simp at hrand

/-- Witness for C9: under cfg0/st0 NewWebSession succeeds with expiry
600000000000 ns after the zero clock and tokens drawn from the zero
entropy tape, and GenerateToken draws a 16-byte join token. -/
theorem newWebSession_fixed_parameters_witness :
    AuthServer.NewWebSession cfg0 st0 "alice" = (.ok nwSess, stNW) ∧
    (nwSess.ws.expires = cfg0.now + WebSessionTTL ∧
      nwSess.id = hexEncode (st0.entropy.take WebSessionTokenLenBytes) ∧
      nwSess.ws.bearerToken
        = hexEncode ((st0.entropy.drop WebSessionTokenLenBytes).take
            WebSessionTokenLenBytes)) ∧
    AuthServer.GenerateToken cfg0 st0 "node1" .node 0 = (.ok c5ot, c5st) ∧
    c5ot.token = hexEncode (st0.entropy.take TokenLenBytes) :=
  ⟨by decide,
    (newWebSession_fixed_parameters cfg0 st0).1 "alice" nwSess stNW (by decide),
    by decide,
    (newWebSession_fixed_parameters cfg0 st0).2.1 "node1" .node 0 c5ot c5st (by decide)⟩

theorem getWebSessionSvc_ok_iff (st : AuthState) (u sid : String) (ws : WebSession) :
    getWebSessionSvc st u sid = .ok ws ↔ lookupA st.webSessions (u, sid) = some ws := by
  unfold getWebSessionSvc
  cases h : lookupA st.webSessions (u, sid) <;> simp [h]

theorem getUserSvc_ok_iff (st : AuthState) (n : String) (usr : User) :
    getUserSvc st n = .ok usr ↔ lookupA st.users n = some usr := by
  unfold getUserSvc
  cases h : lookupA st.users n <;> simp [h]

theorem cryptoRandomHex_frame (n : Nat) (st : AuthState) :
    (cryptoRandomHex n st).2.webSessions = st.webSessions ∧
    (cryptoRandomHex n st).2.users = st.users := by
  unfold cryptoRandomHex
  split <;> exact ⟨rfl, rfl⟩

theorem newWebSession_frame (cfg : AuthConfig) (st : AuthState) (u : String) :
    (AuthServer.NewWebSession cfg st u).2.webSessions = st.webSessions ∧
    (AuthServer.NewWebSession cfg st u).2.users = st.users := by
  unfold AuthServer.NewWebSession
  split
  next e st1 heq =>
    have h1 : (cryptoRandomHex WebSessionTokenLenBytes st).2 = st1 :=
      congrArg Prod.snd heq
    rw [← h1]
    exact cryptoRandomHex_frame _ st
  next token st1 heq =>
    have h1 : (cryptoRandomHex WebSessionTokenLenBytes st).2 = st1 :=
      congrArg Prod.snd heq
    have f1 : st1.webSessions = st.webSessions ∧ st1.users = st.users := by
      rw [← h1]
      exact cryptoRandomHex_frame _ st
    split
    next e st2 heq2 =>
      have h2 : (cryptoRandomHex WebSessionTokenLenBytes st1).2 = st2 :=
        congrArg Prod.snd heq2
      have f2 : st2.webSessions = st1.webSessions ∧ st2.users = st1.users := by
        rw [← h2]
        exact cryptoRandomHex_frame _ st1
      exact ⟨f2.1.trans f1.1, f2.2.trans f1.2⟩
    next bearer st2 heq2 =>
      have h2 : (cryptoRandomHex WebSessionTokenLenBytes st1).2 = st2 :=
        congrArg Prod.snd heq2
      have f2 : st2.webSessions = st1.webSessions ∧ st2.users = st1.users := by
        rw [← h2]
        exact cryptoRandomHex_frame _ st1
      have fc : st2.webSessions = st.webSessions ∧ st2.users = st.users :=
        ⟨f2.1.trans f1.1, f2.2.trans f1.2⟩
      split
      · exact fc
      split
      · exact fc
      split
      · exact fc
      split
      · exact fc
      split
      · exact fc
      exact fc

theorem getWebSession_ok_parts (cfg : AuthConfig) (st : AuthState) (u pid : String)
    (s : Session) :
    AuthServer.GetWebSession cfg st u pid = .ok s →
    lookupA st.webSessions (u, pid) = some s.ws ∧
    lookupA st.users u = some s.user := by
  intro h
  unfold AuthServer.GetWebSession at h
  split at h
  · simp at h
  next ws hws =>
    split at h
    · simp at h
    next usr husr =>
      simp only [Except.ok.injEq] at h
      subst h
      exact ⟨(getWebSessionSvc_ok_iff st u pid ws).mp hws,
        (getUserSvc_ok_iff st u usr).mp husr⟩

theorem getWebSession_ok_build (cfg : AuthConfig) (st : AuthState) (u pid : String)
    (ws : WebSession) (usr : User) :
    lookupA st.webSessions (u, pid) = some ws → lookupA st.users u = some usr →
    AuthServer.GetWebSession cfg st u pid = .ok { id := pid, user := usr, ws := ws } := by
  intro h1 h2
  unfold AuthServer.GetWebSession
  rw [(getWebSessionSvc_ok_iff st u pid ws).mpr h1]
  dsimp only
  rw [(getUserSvc_ok_iff st u usr).mpr h2]

/-- C10 counterexample: when the freshly drawn session ID collides with
the previous session ID, CreateWebSession succeeds yet overwrites the
previous session record in the web-session store. -/
theorem createWebSession_overwrite_on_collision :
    (AuthServer.CreateWebSession cfg0 stCol "alice" zeros64).1
      = .ok { id := zeros64, user := ⟨"alice"⟩, ws := { wsNew with priv := [] } } ∧
    lookupA stCol.webSessions ("alice", zeros64) = some ws0 ∧
    lookupA (AuthServer.CreateWebSession cfg0 stCol "alice"
      zeros64).2.webSessions ("alice", zeros64) = some wsNew ∧
    wsNew ≠ ws0 := by
  refine ⟨by decide, by decide, by decide, by decide⟩

/-- C10 amended: a successful CreateWebSession never deletes the previous
session record: GetWebSession on the previous ID still succeeds
afterwards, and whenever the freshly drawn session ID differs from the
previous one the previous record is left byte-for-byte unchanged (only a
random draw colliding with the previous ID overwrites it). -/
theorem createWebSession_preserves_previous (cfg : AuthConfig) (st : AuthState)
    (u pid : String) (sess : Session) (st1 : AuthState) :
    AuthServer.CreateWebSession cfg st u pid = (.ok sess, st1) →
    (∃ s2, AuthServer.GetWebSession cfg st1 u pid = .ok s2) ∧
    (sess.id ≠ pid →
      lookupA st1.webSessions (u, pid) = lookupA st.webSessions (u, pid)) := by
  intro h
  unfold AuthServer.CreateWebSession at h
  split at h
  · simp at h
  next s0 hget =>
    split at h
    · simp at h
    next sess0 stN hnew =>
      split at h
      · simp at h
      next u0 st2 hups =>
        simp only [Prod.mk.injEq, Except.ok.injEq] at h
        obtain ⟨h1, h2⟩ := h
        subst h2
        have hst2 : ({ stN with
            webSessions := insertA stN.webSessions (u, sess0.id) sess0.ws } : AuthState)
            = st2 := congrArg Prod.snd hups
        subst hst2
        have hN : (AuthServer.NewWebSession cfg st u).2 = stN := congrArg Prod.snd hnew
        have f : stN.webSessions = st.webSessions ∧ stN.users = st.users := by
          rw [← hN]
          exact newWebSession_frame cfg st u
        obtain ⟨hlookup, huser⟩ := getWebSession_ok_parts cfg st u pid s0 hget
        have husers1 : lookupA stN.users u = some s0.user := by
          rw [f.2]
          exact huser
        constructor
        · by_cases hid : pid = sess0.id
          · subst hid
            refine ⟨{ id := sess0.id, user := s0.user, ws := sess0.ws }, ?_⟩
            apply getWebSession_ok_build
            · exact lookupA_insertA_self stN.webSessions (u, sess0.id) sess0.ws
            · exact husers1
          · refine ⟨{ id := pid, user := s0.user, ws := s0.ws }, ?_⟩
            apply getWebSession_ok_build
            · have hkey : ((u, pid) : String × String) ≠ (u, sess0.id) :=
                fun hc => hid (congrArg Prod.snd hc)
              rw [lookupA_insertA_ne stN.webSessions (u, sess0.id) (u, pid) sess0.ws hkey]
              rw [f.1]
              exact hlookup
            · exact husers1
        · intro hne
          have hid : sess0.id ≠ pid := by
            intro hc
            apply hne
            rw [← h1]
            exact hc
          have hkey : ((u, pid) : String × String) ≠ (u, sess0.id) :=
            fun hc => hid (congrArg Prod.snd hc).symm
          show lookupA (insertA stN.webSessions (u, sess0.id) sess0.ws) (u, pid)
            = lookupA st.webSessions (u, pid)
          rw [lookupA_insertA_ne stN.webSessions (u, sess0.id) (u, pid) sess0.ws hkey]
          rw [f.1]

/-- Witness for C10 amended: renewing sid0 under cfg0/st0 succeeds, the
previous record is unchanged, and GetWebSession on sid0 still
succeeds. -/
theorem createWebSession_preserves_previous_witness :
    AuthServer.CreateWebSession cfg0 st0 "alice" "sid0" = (.ok c2sess, st0after) ∧
    ((∃ s2, AuthServer.GetWebSession cfg0 st0after "alice" "sid0" = .ok s2) ∧
      (c2sess.id ≠ "sid0" →
        lookupA st0after.webSessions ("alice", "sid0")
          = lookupA st0.webSessions ("alice", "sid0"))) :=
  ⟨by decide,
    createWebSession_preserves_previous cfg0 st0 "alice" "sid0" c2sess st0after
      (by decide)⟩

/-- Witness for C8: validating the db1 token leaves the state unchanged
and succeeds exactly because the record binds domain db1 with role
Node. -/
theorem validateToken_readonly_witness :
    (AuthServer.ValidateToken cfg0 stR otR "db1").2 = stR ∧
    ((AuthServer.ValidateToken cfg0 stR otR "db1").1 = .ok "Node" ↔
      lookupA stR.provisioning otR.token = some ⟨"db1", "Node"⟩) :=
  ⟨(validateToken_readonly cfg0 stR otR "db1").1,
    (validateToken_readonly cfg0 stR otR "db1").2 "Node"⟩
